import Mathlib

/-!
Shallow embedding of the retry middleware in
src/openapi-client-core/src/openapi_client_core/transport/retry.py.

The two transport classes IdempotentOnlyRetry and RateLimitAwareRetry are
modelled as pure functions.  The wrapped transport is a function from the
number of wrapped-transport invocations made so far to an outcome: either a
response (Except.ok) or a raised transport-level exception (Except.error).
Python ints are Int, status codes are Int, delays are exact rationals
(the delay arithmetic in the source -- products with powers of two and min --
is exact on the magnitudes the claims mention).  The string value of the
Retry-After header is modelled by how the two stdlib parsers used by the
source classify it: it parses as an integer, or as an aware HTTP-date with a
given epoch time, or neither, or the header is missing/empty (falsy).
-/

namespace RetryPy

/-- Classification of the Retry-After header value of a response, by the
outcome of the two parse attempts the source makes: absent covers a missing
header and the empty string (both falsy for the guard at retry.py:366);
asInt n means Python int() succeeds with value n; asDate t means
parsedate_to_datetime succeeds with an aware datetime at epoch-seconds t and
the subtraction from now succeeds; malformed covers every other value
(ValueError/TypeError from both parse attempts). -/
inductive RetryAfterHeader where
  | absent : RetryAfterHeader
  | asInt (n : Int) : RetryAfterHeader
  | asDate (t : ℚ) : RetryAfterHeader
  | malformed : RetryAfterHeader
  deriving DecidableEq, Repr

/-- An HTTP response as far as the retry module inspects it: its status code
and its Retry-After header. -/
structure Response where
  status : Int
  retryAfter : RetryAfterHeader
  deriving DecidableEq, Repr

/-- Result of one logical send through a retry transport: the outcome
(returned response or propagated exception), the number of invocations of
the wrapped transport, the sleep delays in order, whether the code after the
while loop executed, and whether the post-loop fallback invocation of the
wrapped transport happened. -/
structure SendResult (ε : Type) where
  outcome : Except ε Response
  calls : Nat
  sleeps : List ℚ
  postLoop : Bool
  fallbackCall : Bool

/-- The code after the while loop, identical in both classes (retry.py:162-167
and retry.py:313-318): return last_response if it is not None, else make one
more wrapped-transport invocation and return (or propagate) its outcome. -/
def afterLoop {ε : Type} (transport : Nat → Except ε Response)
    (lastResponse : Option Response) (calls : Nat) (sleeps : List ℚ) :
    SendResult ε :=
  match lastResponse with
  | some r => ⟨Except.ok r, calls, sleeps, true, false⟩
  | none => ⟨transport calls, calls + 1, sleeps, true, true⟩

namespace IdempotentOnlyRetry

/-- IDEMPOTENT_METHODS of IdempotentOnlyRetry (retry.py:85). -/
def IDEMPOTENT_METHODS : List String := ["HEAD", "GET", "OPTIONS", "TRACE"]

/-- DEFAULT_RETRY_STATUS_CODES (retry.py:88). -/
def DEFAULT_RETRY_STATUS_CODES : Finset Int := {502, 503, 504}

/-- Configuration state stored on an IdempotentOnlyRetry instance. -/
structure Config where
  maxRetries : Int
  backoffFactor : ℚ
  retryStatusCodes : Finset Int
  deriving DecidableEq

/-- Constructor semantics (retry.py:90-101).  The argument retry_status_codes
defaults to None; the body stores retry_status_codes or DEFAULT_RETRY_STATUS_CODES,
and both None and an empty frozenset are falsy in Python, so both select the
default set. -/
def init (maxRetries : Int) (backoffFactor : ℚ)
    (retryStatusCodes : Option (Finset Int)) : Config :=
  { maxRetries := maxRetries
    backoffFactor := backoffFactor
    retryStatusCodes :=
      match retryStatusCodes with
      | none => DEFAULT_RETRY_STATUS_CODES
      | some s => if s = ∅ then DEFAULT_RETRY_STATUS_CODES else s }

/-- Default construction: IdempotentOnlyRetry(wrapped_transport=t) with all
keyword defaults (max_retries=5, backoff_factor=1.0, retry_status_codes=None). -/
def defaultConfig : Config := init 5 1 none

/-- The method _should_retry (retry.py:169-189). -/
def should_retry (cfg : Config) (method : String) (status : Int)
    (currentRetries : Nat) : Bool :=
  if (currentRetries : Int) ≥ cfg.maxRetries then false
  else if method ∉ IDEMPOTENT_METHODS then false
  else decide (status ∈ cfg.retryStatusCodes)

/-- The method _calculate_backoff_delay (retry.py:191-203):
backoff_factor * (2 ** (retry_number - 1)). -/
def calculate_backoff_delay (backoffFactor : ℚ) (retryNumber : Nat) : ℚ :=
  backoffFactor * 2 ^ (retryNumber - 1)

/-- The while loop of handle_async_request (retry.py:112-167), with the loop
variables retries and last_response as arguments, together with the running
count of wrapped-transport invocations and the list of sleeps performed. -/
def sendLoop {ε : Type} (cfg : Config) (method : String)
    (transport : Nat → Except ε Response)
    (retries : Nat) (lastResponse : Option Response)
    (calls : Nat) (sleeps : List ℚ) : SendResult ε :=
  if _hloop : (retries : Int) ≤ cfg.maxRetries then
    match transport calls with
    | Except.ok response =>
      if hr : should_retry cfg method response.status retries then
        sendLoop cfg method transport (retries + 1) (some response) (calls + 1)
          (sleeps ++ [calculate_backoff_delay cfg.backoffFactor (retries + 1)])
      else
        ⟨Except.ok response, calls + 1, sleeps, false, false⟩
    | Except.error e =>
      if hx : (retries : Int) ≥ cfg.maxRetries then
        ⟨Except.error e, calls + 1, sleeps, false, false⟩
      else
        sendLoop cfg method transport (retries + 1) lastResponse (calls + 1)
          (sleeps ++ [calculate_backoff_delay cfg.backoffFactor (retries + 1)])
  else
    afterLoop transport lastResponse calls sleeps
termination_by (cfg.maxRetries + 1 - (retries : Int)).toNat
decreasing_by
  · have hlt : (retries : Int) < cfg.maxRetries := by
      by_contra hge
      push_neg at hge
      unfold should_retry at hr
      rw [if_pos (by exact_mod_cast hge)] at hr
      exact Bool.noConfusion hr
    omega
  · omega

/-- The method handle_async_request (retry.py:112-167): the loop entered with
retries = 0 and last_response = None. -/
def handle_async_request {ε : Type} (cfg : Config) (method : String)
    (transport : Nat → Except ε Response) : SendResult ε :=
  sendLoop cfg method transport 0 none 0 []

end IdempotentOnlyRetry

namespace RateLimitAwareRetry

/-- IDEMPOTENT_METHODS of RateLimitAwareRetry (retry.py:236). -/
def IDEMPOTENT_METHODS : List String :=
  ["HEAD", "GET", "PUT", "DELETE", "OPTIONS", "TRACE"]

/-- DEFAULT_RETRY_5XX_STATUS_CODES (retry.py:239). -/
def DEFAULT_RETRY_5XX_STATUS_CODES : Finset Int := {502, 503, 504}

/-- Configuration state stored on a RateLimitAwareRetry instance. -/
structure Config where
  maxRetries : Int
  backoffFactor : ℚ
  maxBackoff : ℚ
  retry5xxStatusCodes : Finset Int
  deriving DecidableEq

/-- Constructor semantics (retry.py:241-254); like IdempotentOnlyRetry.init,
a None or empty retry_5xx_status_codes argument selects the default set. -/
def init (maxRetries : Int) (backoffFactor : ℚ) (maxBackoff : ℚ)
    (retry5xxStatusCodes : Option (Finset Int)) : Config :=
  { maxRetries := maxRetries
    backoffFactor := backoffFactor
    maxBackoff := maxBackoff
    retry5xxStatusCodes :=
      match retry5xxStatusCodes with
      | none => DEFAULT_RETRY_5XX_STATUS_CODES
      | some s => if s = ∅ then DEFAULT_RETRY_5XX_STATUS_CODES else s }

/-- Default construction: RateLimitAwareRetry(wrapped_transport=t) with all
keyword defaults (max_retries=5, backoff_factor=1.0, max_backoff=60.0,
retry_5xx_status_codes=None). -/
def defaultConfig : Config := init 5 1 60 none

/-- The method _calculate_backoff_delay (retry.py:396-409):
min(backoff_factor * (2 ** (retry_number - 1)), max_backoff). -/
def calculate_backoff_delay (cfg : Config) (retryNumber : Nat) : ℚ :=
  min (cfg.backoffFactor * 2 ^ (retryNumber - 1)) cfg.maxBackoff

/-- The method _parse_retry_after (retry.py:352-394), with the wall-clock
reading datetime.now(UTC) supplied as the epoch-seconds argument now. -/
def parse_retry_after (cfg : Config) (header : RetryAfterHeader) (now : ℚ) :
    Option ℚ :=
  match header with
  | RetryAfterHeader.absent => none
  | RetryAfterHeader.asInt n =>
      if n < 0 then none else some (min (n : ℚ) cfg.maxBackoff)
  | RetryAfterHeader.asDate t =>
      if t - now < 0 then none else some (min (t - now) cfg.maxBackoff)
  | RetryAfterHeader.malformed => none

/-- The method _should_retry_with_delay (retry.py:320-350). -/
def should_retry_with_delay (cfg : Config) (method : String)
    (response : Response) (currentRetries : Nat) (now : ℚ) : Bool × ℚ :=
  if (currentRetries : Int) ≥ cfg.maxRetries then (false, 0)
  else if response.status = 429 then
    match parse_retry_after cfg response.retryAfter now with
    | some d => (true, d)
    | none => (true, calculate_backoff_delay cfg (currentRetries + 1))
  else if response.status ∈ cfg.retry5xxStatusCodes ∧ method ∈ IDEMPOTENT_METHODS then
    (true, calculate_backoff_delay cfg (currentRetries + 1))
  else (false, 0)

/-- The while loop of handle_async_request (retry.py:265-318), with the loop
variables as arguments.  nowAt k is the wall clock at the decision following
the k-th wrapped-transport invocation. -/
def sendLoop {ε : Type} (cfg : Config) (method : String)
    (transport : Nat → Except ε Response) (nowAt : Nat → ℚ)
    (retries : Nat) (lastResponse : Option Response)
    (calls : Nat) (sleeps : List ℚ) : SendResult ε :=
  if _hloop : (retries : Int) ≤ cfg.maxRetries then
    match transport calls with
    | Except.ok response =>
      if hr : (should_retry_with_delay cfg method response retries (nowAt calls)).1 then
        sendLoop cfg method transport nowAt (retries + 1) (some response) (calls + 1)
          (sleeps ++ [(should_retry_with_delay cfg method response retries (nowAt calls)).2])
      else
        ⟨Except.ok response, calls + 1, sleeps, false, false⟩
    | Except.error e =>
      if hx : (retries : Int) ≥ cfg.maxRetries ∨ method ∉ IDEMPOTENT_METHODS then
        ⟨Except.error e, calls + 1, sleeps, false, false⟩
      else
        sendLoop cfg method transport nowAt (retries + 1) lastResponse (calls + 1)
          (sleeps ++ [calculate_backoff_delay cfg (retries + 1)])
  else
    afterLoop transport lastResponse calls sleeps
termination_by (cfg.maxRetries + 1 - (retries : Int)).toNat
decreasing_by
  · have hlt : (retries : Int) < cfg.maxRetries := by
      by_contra hge
      push_neg at hge
      unfold should_retry_with_delay at hr
      rw [if_pos (by exact_mod_cast hge)] at hr
      exact Bool.noConfusion hr
    omega
  · rw [not_or] at hx
    omega

/-- The method handle_async_request (retry.py:265-318): the loop entered with
retries = 0 and last_response = None. -/
def handle_async_request {ε : Type} (cfg : Config) (method : String)
    (transport : Nat → Except ε Response) (nowAt : Nat → ℚ) : SendResult ε :=
  sendLoop cfg method transport nowAt 0 none 0 []

end RateLimitAwareRetry

/-!
Helper lemmas shared by the claim theorems.
-/

/-- A true _should_retry implies the retry budget is not exhausted (the first
check of _should_retry, retry.py:181). -/
theorem IdempotentOnlyRetry.should_retry_lt (cfg : IdempotentOnlyRetry.Config)
    (method : String) (status : Int) (currentRetries : Nat)
    (h : IdempotentOnlyRetry.should_retry cfg method status currentRetries = true) :
    (currentRetries : Int) < cfg.maxRetries := by
  by_contra hge
  push_neg at hge
  unfold IdempotentOnlyRetry.should_retry at h
  rw [if_pos (by exact_mod_cast hge)] at h
  exact Bool.noConfusion h

/-- A true retry decision implies the retry budget is not exhausted (the
first check of _should_retry_with_delay, retry.py:334). -/
theorem RateLimitAwareRetry.decision_lt (cfg : RateLimitAwareRetry.Config)
    (method : String) (response : Response) (currentRetries : Nat) (now : ℚ)
    (h : (RateLimitAwareRetry.should_retry_with_delay cfg method response
      currentRetries now).1 = true) :
    (currentRetries : Int) < cfg.maxRetries := by
  by_contra hge
  push_neg at hge
  unfold RateLimitAwareRetry.should_retry_with_delay at h
  rw [if_pos (by exact_mod_cast hge)] at h
  exact Bool.noConfusion h

/-- Loop invariant of the IdempotentOnlyRetry attempt loop: entered within
budget, the loop never reaches the code after the while, makes between one
and maxRetries - retries + 1 further wrapped-transport invocations, and its
outcome is exactly the outcome of the last invocation it made. -/
theorem IdempotentOnlyRetry.idemSendLoop_inv {ε : Type} (cfg : IdempotentOnlyRetry.Config)
    (method : String) (transport : Nat → Except ε Response) :
    ∀ (retries : Nat) (lastR : Option Response) (calls : Nat) (sleeps : List ℚ),
    (retries : Int) ≤ cfg.maxRetries →
    (IdempotentOnlyRetry.sendLoop cfg method transport retries lastR calls sleeps).postLoop
        = false ∧
    (IdempotentOnlyRetry.sendLoop cfg method transport retries lastR calls sleeps).fallbackCall
        = false ∧
    calls + 1 ≤ (IdempotentOnlyRetry.sendLoop cfg method transport retries lastR calls sleeps).calls ∧
    ((IdempotentOnlyRetry.sendLoop cfg method transport retries lastR calls sleeps).calls : Int)
        + retries ≤ calls + cfg.maxRetries + 1 ∧
    (IdempotentOnlyRetry.sendLoop cfg method transport retries lastR calls sleeps).outcome
        = transport ((IdempotentOnlyRetry.sendLoop cfg method transport retries lastR calls sleeps).calls - 1) := by
  intro retries lastR calls sleeps
  induction retries, lastR, calls, sleeps
    using IdempotentOnlyRetry.sendLoop.induct cfg method transport with
  | case1 retries lastR calls sleeps h1 response h2 h3 ih =>
    intro _
    have hstep : IdempotentOnlyRetry.sendLoop cfg method transport retries lastR calls sleeps
        = IdempotentOnlyRetry.sendLoop cfg method transport (retries + 1) (some response)
            (calls + 1)
            (sleeps ++ [IdempotentOnlyRetry.calculate_backoff_delay cfg.backoffFactor (retries + 1)]) := by
      rw [IdempotentOnlyRetry.sendLoop.eq_def]
      simp only [h2, dif_pos h1, dif_pos h3]
    rw [hstep]
    have hlt := IdempotentOnlyRetry.should_retry_lt cfg method response.status retries h3
    have ih2 := ih (by push_cast; omega)
    refine ⟨ih2.1, ih2.2.1, by omega, ?_, ih2.2.2.2.2⟩
    have := ih2.2.2.2.1
    push_cast at this ⊢
    omega
  | case2 retries lastR calls sleeps h1 response h2 h3 =>
    intro _
    have hstep : IdempotentOnlyRetry.sendLoop cfg method transport retries lastR calls sleeps
        = ⟨Except.ok response, calls + 1, sleeps, false, false⟩ := by
      rw [IdempotentOnlyRetry.sendLoop.eq_def]
      simp only [h2, dif_pos h1, dif_neg h3]
    rw [hstep]
    exact ⟨rfl, rfl, le_refl _, by push_cast; omega, by simpa using h2.symm⟩
  | case3 retries lastR calls sleeps h1 e h2 h3 =>
    intro _
    have hstep : IdempotentOnlyRetry.sendLoop cfg method transport retries lastR calls sleeps
        = ⟨Except.error e, calls + 1, sleeps, false, false⟩ := by
      rw [IdempotentOnlyRetry.sendLoop.eq_def]
      simp only [h2, dif_pos h1, dif_pos h3]
    rw [hstep]
    exact ⟨rfl, rfl, le_refl _, by push_cast; omega, by simpa using h2.symm⟩
  | case4 retries lastR calls sleeps h1 e h2 h3 ih =>
    intro _
    have hstep : IdempotentOnlyRetry.sendLoop cfg method transport retries lastR calls sleeps
        = IdempotentOnlyRetry.sendLoop cfg method transport (retries + 1) lastR (calls + 1)
            (sleeps ++ [IdempotentOnlyRetry.calculate_backoff_delay cfg.backoffFactor (retries + 1)]) := by
      rw [IdempotentOnlyRetry.sendLoop.eq_def]
      simp only [h2, dif_pos h1, dif_neg h3]
    rw [hstep]
    have hlt : (retries : Int) < cfg.maxRetries := by
      push_neg at h3
      exact_mod_cast h3
    have ih2 := ih (by push_cast; omega)
    refine ⟨ih2.1, ih2.2.1, by omega, ?_, ih2.2.2.2.2⟩
    have := ih2.2.2.2.1
    push_cast at this ⊢
    omega
  | case5 retries lastR calls sleeps h1 =>
    intro h
    exact absurd h h1

/-- Loop invariant of the RateLimitAwareRetry attempt loop: entered within
budget, the loop never reaches the code after the while, makes between one
and maxRetries - retries + 1 further wrapped-transport invocations, and its
outcome is exactly the outcome of the last invocation it made. -/
theorem RateLimitAwareRetry.rlaSendLoop_inv {ε : Type} (cfg : RateLimitAwareRetry.Config)
    (method : String) (transport : Nat → Except ε Response) (nowAt : Nat → ℚ) :
    ∀ (retries : Nat) (lastR : Option Response) (calls : Nat) (sleeps : List ℚ),
    (retries : Int) ≤ cfg.maxRetries →
    (RateLimitAwareRetry.sendLoop cfg method transport nowAt retries lastR calls sleeps).postLoop
        = false ∧
    (RateLimitAwareRetry.sendLoop cfg method transport nowAt retries lastR calls sleeps).fallbackCall
        = false ∧
    calls + 1 ≤ (RateLimitAwareRetry.sendLoop cfg method transport nowAt retries lastR calls sleeps).calls ∧
    ((RateLimitAwareRetry.sendLoop cfg method transport nowAt retries lastR calls sleeps).calls : Int)
        + retries ≤ calls + cfg.maxRetries + 1 ∧
    (RateLimitAwareRetry.sendLoop cfg method transport nowAt retries lastR calls sleeps).outcome
        = transport ((RateLimitAwareRetry.sendLoop cfg method transport nowAt retries lastR calls sleeps).calls - 1) := by
  intro retries lastR calls sleeps
  induction retries, lastR, calls, sleeps
    using RateLimitAwareRetry.sendLoop.induct cfg method transport nowAt with
  | case1 retries lastR calls sleeps h1 response h2 h3 ih =>
    intro _
    have hstep : RateLimitAwareRetry.sendLoop cfg method transport nowAt retries lastR calls sleeps
        = RateLimitAwareRetry.sendLoop cfg method transport nowAt (retries + 1) (some response)
            (calls + 1)
            (sleeps ++ [(RateLimitAwareRetry.should_retry_with_delay cfg method response retries (nowAt calls)).2]) := by
      rw [RateLimitAwareRetry.sendLoop.eq_def]
      simp only [h2, dif_pos h1, dif_pos h3]
    rw [hstep]
    have hlt := RateLimitAwareRetry.decision_lt cfg method response retries (nowAt calls) h3
    have ih2 := ih (by push_cast; omega)
    refine ⟨ih2.1, ih2.2.1, by omega, ?_, ih2.2.2.2.2⟩
    have := ih2.2.2.2.1
    push_cast at this ⊢
    omega
  | case2 retries lastR calls sleeps h1 response h2 h3 =>
    intro _
    have hstep : RateLimitAwareRetry.sendLoop cfg method transport nowAt retries lastR calls sleeps
        = ⟨Except.ok response, calls + 1, sleeps, false, false⟩ := by
      rw [RateLimitAwareRetry.sendLoop.eq_def]
      simp only [h2, dif_pos h1, dif_neg h3]
    rw [hstep]
    exact ⟨rfl, rfl, le_refl _, by push_cast; omega, by simpa using h2.symm⟩
  | case3 retries lastR calls sleeps h1 e h2 h3 =>
    intro _
    have hstep : RateLimitAwareRetry.sendLoop cfg method transport nowAt retries lastR calls sleeps
        = ⟨Except.error e, calls + 1, sleeps, false, false⟩ := by
      rw [RateLimitAwareRetry.sendLoop.eq_def]
      simp only [h2, dif_pos h1, dif_pos h3]
    rw [hstep]
    exact ⟨rfl, rfl, le_refl _, by push_cast; omega, by simpa using h2.symm⟩
  | case4 retries lastR calls sleeps h1 e h2 h3 ih =>
    intro _
    have hstep : RateLimitAwareRetry.sendLoop cfg method transport nowAt retries lastR calls sleeps
        = RateLimitAwareRetry.sendLoop cfg method transport nowAt (retries + 1) lastR (calls + 1)
            (sleeps ++ [RateLimitAwareRetry.calculate_backoff_delay cfg (retries + 1)]) := by
      rw [RateLimitAwareRetry.sendLoop.eq_def]
      simp only [h2, dif_pos h1, dif_neg h3]
    rw [hstep]
    rw [not_or] at h3
    have hlt : (retries : Int) < cfg.maxRetries := by
      have := h3.1
      push_neg at this
      exact_mod_cast this
    have ih2 := ih (by push_cast; omega)
    refine ⟨ih2.1, ih2.2.1, by omega, ?_, ih2.2.2.2.2⟩
    have := ih2.2.2.2.1
    push_cast at this ⊢
    omega
  | case5 retries lastR calls sleeps h1 =>
    intro h
    exact absurd h h1

/-- Characterisation of _should_retry (retry.py:169-189): it is true exactly
when the retry budget is not exhausted, the method is idempotent, and the
status code is in the configured retry set. -/
theorem IdempotentOnlyRetry.should_retry_iff (cfg : IdempotentOnlyRetry.Config)
    (method : String) (status : Int) (r : Nat) :
    IdempotentOnlyRetry.should_retry cfg method status r = true ↔
      ((r : Int) < cfg.maxRetries ∧ method ∈ IdempotentOnlyRetry.IDEMPOTENT_METHODS ∧
        status ∈ cfg.retryStatusCodes) := by
  unfold IdempotentOnlyRetry.should_retry
  by_cases hge : (r : Int) ≥ cfg.maxRetries
  · rw [if_pos hge]
    simp only [Bool.false_eq_true, false_iff]
    intro hc
    exact absurd hc.1 (not_lt.mpr hge)
  · rw [if_neg hge]
    by_cases hnm : method ∉ IdempotentOnlyRetry.IDEMPOTENT_METHODS
    · rw [if_pos hnm]
      simp only [Bool.false_eq_true, false_iff]
      intro hc
      exact hnm hc.2.1
    · rw [if_neg hnm]
      rw [not_not] at hnm
      simp only [decide_eq_true_eq]
      constructor
      · intro h
        exact ⟨by omega, hnm, h⟩
      · intro h
        exact h.2.2

/-- The value _parse_retry_after returns, when it returns one, never exceeds
max_backoff: both return paths apply min(delay, self.max_backoff)
(retry.py:375 and retry.py:389). -/
theorem RateLimitAwareRetry.parse_retry_after_le (cfg : RateLimitAwareRetry.Config)
    (header : RetryAfterHeader) (now : ℚ) (d : ℚ)
    (h : RateLimitAwareRetry.parse_retry_after cfg header now = some d) :
    d ≤ cfg.maxBackoff := by
  cases header with
  | absent =>
    simp only [RateLimitAwareRetry.parse_retry_after] at h
    exact Option.noConfusion h
  | asInt n =>
    simp only [RateLimitAwareRetry.parse_retry_after] at h
    by_cases hn : n < 0
    · rw [if_pos hn] at h
      exact Option.noConfusion h
    · rw [if_neg hn] at h
      rw [Option.some_inj] at h
      rw [← h]
      exact min_le_right _ _
  | asDate t =>
    simp only [RateLimitAwareRetry.parse_retry_after] at h
    by_cases ht : t - now < 0
    · rw [if_pos ht] at h
      exact Option.noConfusion h
    · rw [if_neg ht] at h
      rw [Option.some_inj] at h
      rw [← h]
      exact min_le_right _ _
  | malformed =>
    simp only [RateLimitAwareRetry.parse_retry_after] at h
    exact Option.noConfusion h

/-- When every wrapped-transport outcome is a response with a status in the
configured retry set and the method is idempotent, the IdempotentOnlyRetry
loop started at retry count i performs exactly maxRetries - i retries plus
the final attempt, sleeps once per retry, and returns the response of its
last attempt. -/
theorem IdempotentOnlyRetry.sendLoop_all_retryable {ε : Type}
    (cfg : IdempotentOnlyRetry.Config) (method : String)
    (transport : Nat → Except ε Response) (n : Nat)
    (hn : cfg.maxRetries = (n : Int))
    (hm : method ∈ IdempotentOnlyRetry.IDEMPOTENT_METHODS)
    (hfail : ∀ k r, transport k = Except.ok r → r.status ∈ cfg.retryStatusCodes)
    (hok : ∀ k, ∃ r, transport k = Except.ok r) :
    ∀ (retries : Nat) (lastR : Option Response) (calls : Nat) (sleeps : List ℚ),
    retries ≤ n →
    (IdempotentOnlyRetry.sendLoop cfg method transport retries lastR calls sleeps).calls
        = calls + (n - retries) + 1 ∧
    (IdempotentOnlyRetry.sendLoop cfg method transport retries lastR calls sleeps).sleeps.length
        = sleeps.length + (n - retries) ∧
    (IdempotentOnlyRetry.sendLoop cfg method transport retries lastR calls sleeps).outcome
        = transport (calls + (n - retries)) := by
  intro retries lastR calls sleeps
  induction retries, lastR, calls, sleeps
    using IdempotentOnlyRetry.sendLoop.induct cfg method transport with
  | case1 retries lastR calls sleeps h1 response h2 h3 ih =>
    intro hle
    have hlt : retries < n := by
      have := IdempotentOnlyRetry.should_retry_lt cfg method response.status retries h3
      rw [hn] at this
      exact_mod_cast this
    have hstep : IdempotentOnlyRetry.sendLoop cfg method transport retries lastR calls sleeps
        = IdempotentOnlyRetry.sendLoop cfg method transport (retries + 1) (some response)
            (calls + 1)
            (sleeps ++ [IdempotentOnlyRetry.calculate_backoff_delay cfg.backoffFactor (retries + 1)]) := by
      rw [IdempotentOnlyRetry.sendLoop.eq_def]
      simp only [h2, dif_pos h1, dif_pos h3]
    rw [hstep]
    have ih2 := ih (by omega)
    have hidx : calls + 1 + (n - (retries + 1)) = calls + (n - retries) := by omega
    refine ⟨by omega, ?_, ?_⟩
    · rw [ih2.2.1]
      simp only [List.length_append, List.length_singleton]
      omega
    · rw [ih2.2.2, hidx]
  | case2 retries lastR calls sleeps h1 response h2 h3 =>
    intro hle
    have hge : n ≤ retries := by
      by_contra hlt
      push_neg at hlt
      apply h3
      rw [IdempotentOnlyRetry.should_retry_iff]
      exact ⟨by rw [hn]; exact_mod_cast hlt, hm, hfail calls response h2⟩
    have heq : n - retries = 0 := by omega
    have hstep : IdempotentOnlyRetry.sendLoop cfg method transport retries lastR calls sleeps
        = ⟨Except.ok response, calls + 1, sleeps, false, false⟩ := by
      rw [IdempotentOnlyRetry.sendLoop.eq_def]
      simp only [h2, dif_pos h1, dif_neg h3]
    rw [hstep, heq]
    exact ⟨rfl, by simp, by simpa using h2.symm⟩
  | case3 retries lastR calls sleeps h1 e h2 h3 =>
    intro _
    obtain ⟨r, hr⟩ := hok calls
    rw [h2] at hr
    exact Except.noConfusion hr
  | case4 retries lastR calls sleeps h1 e h2 h3 ih =>
    intro _
    obtain ⟨r, hr⟩ := hok calls
    rw [h2] at hr
    exact Except.noConfusion hr
  | case5 retries lastR calls sleeps h1 =>
    intro hle
    exfalso
    apply h1
    rw [hn]
    exact_mod_cast hle

/-!
Claim theorems.
-/

/-- Claim C7: the backoff calculation is the pure function
delay(retryNumber) = backoffFactor * 2 ^ (retryNumber - 1) with retryNumber
1-indexed, uncapped for IdempotentOnlyRetry and capped by maxBackoffSeconds
for RateLimitAwareRetry; for backoffFactor = 1.0 the first five retries wait
1, 2, 4, 8, 16 seconds. -/
theorem claim_C7_backoff_formula :
    (∀ (f : ℚ) (n : Nat),
      IdempotentOnlyRetry.calculate_backoff_delay f (n + 1) = f * 2 ^ n) ∧
    (∀ (cfg : RateLimitAwareRetry.Config) (n : Nat),
      RateLimitAwareRetry.calculate_backoff_delay cfg (n + 1)
        = min (cfg.backoffFactor * 2 ^ n) cfg.maxBackoff) ∧
    IdempotentOnlyRetry.calculate_backoff_delay 1 1 = 1 ∧
    IdempotentOnlyRetry.calculate_backoff_delay 1 2 = 2 ∧
    IdempotentOnlyRetry.calculate_backoff_delay 1 3 = 4 ∧
    IdempotentOnlyRetry.calculate_backoff_delay 1 4 = 8 ∧
    IdempotentOnlyRetry.calculate_backoff_delay 1 5 = 16 := by
  refine ⟨?_, ?_, ?_, ?_, ?_, ?_, ?_⟩
  · intro f n
    simp [IdempotentOnlyRetry.calculate_backoff_delay]
  · intro cfg n
    simp [RateLimitAwareRetry.calculate_backoff_delay]
  all_goals norm_num [IdempotentOnlyRetry.calculate_backoff_delay]

/-- Claim C10: passing an explicitly empty retry status code set to either
constructor silently installs the default set 502, 503, 504, because an
empty set is falsy in the Python idiom x or DEFAULT, so a transport
constructed with an empty set behaves identically to one constructed with
the default. -/
theorem claim_C10_empty_set_selects_default :
    (∀ (mr : Int) (f : ℚ),
      IdempotentOnlyRetry.init mr f (some ∅) = IdempotentOnlyRetry.init mr f none) ∧
    (∀ (mr : Int) (f : ℚ),
      (IdempotentOnlyRetry.init mr f (some ∅)).retryStatusCodes
        = IdempotentOnlyRetry.DEFAULT_RETRY_STATUS_CODES) ∧
    (∀ (mr : Int) (f mb : ℚ),
      RateLimitAwareRetry.init mr f mb (some ∅) = RateLimitAwareRetry.init mr f mb none) ∧
    (∀ (mr : Int) (f mb : ℚ),
      (RateLimitAwareRetry.init mr f mb (some ∅)).retry5xxStatusCodes
        = RateLimitAwareRetry.DEFAULT_RETRY_5XX_STATUS_CODES) ∧
    (∀ (ε : Type) (mr : Int) (f : ℚ) (method : String)
        (transport : Nat → Except ε Response),
      IdempotentOnlyRetry.handle_async_request (IdempotentOnlyRetry.init mr f (some ∅))
          method transport
        = IdempotentOnlyRetry.handle_async_request (IdempotentOnlyRetry.init mr f none)
            method transport) ∧
    (∀ (ε : Type) (mr : Int) (f mb : ℚ) (method : String)
        (transport : Nat → Except ε Response) (nowAt : Nat → ℚ),
      RateLimitAwareRetry.handle_async_request (RateLimitAwareRetry.init mr f mb (some ∅))
          method transport nowAt
        = RateLimitAwareRetry.handle_async_request (RateLimitAwareRetry.init mr f mb none)
            method transport nowAt) := by
  have hi : ∀ (mr : Int) (f : ℚ),
      IdempotentOnlyRetry.init mr f (some ∅) = IdempotentOnlyRetry.init mr f none := by
    intro mr f
    simp [IdempotentOnlyRetry.init]
  have hr : ∀ (mr : Int) (f mb : ℚ),
      RateLimitAwareRetry.init mr f mb (some ∅) = RateLimitAwareRetry.init mr f mb none := by
    intro mr f mb
    simp [RateLimitAwareRetry.init]
  refine ⟨hi, ?_, hr, ?_, ?_, ?_⟩
  · intro mr f
    rw [hi mr f]
    rfl
  · intro mr f mb
    rw [hr mr f mb]
    rfl
  · intro ε mr f method transport
    rw [hi mr f]
  · intro ε mr f mb method transport nowAt
    rw [hr mr f mb]

/-- Claim C8: for every logical send under either strategy, the outcome is
exactly the outcome of the last wrapped-transport invocation: a final
response is returned unchanged regardless of status, a final transport
exception propagates as-is, and no synthesized gave-up error is ever
produced. -/
theorem claim_C8_exhaustion_yields_last_outcome {ε : Type}
    (icfg : IdempotentOnlyRetry.Config) (rcfg : RateLimitAwareRetry.Config)
    (method : String) (transport : Nat → Except ε Response) (nowAt : Nat → ℚ) :
    ((IdempotentOnlyRetry.handle_async_request icfg method transport).outcome
        = transport ((IdempotentOnlyRetry.handle_async_request icfg method transport).calls - 1) ∧
      1 ≤ (IdempotentOnlyRetry.handle_async_request icfg method transport).calls) ∧
    ((RateLimitAwareRetry.handle_async_request rcfg method transport nowAt).outcome
        = transport ((RateLimitAwareRetry.handle_async_request rcfg method transport nowAt).calls - 1) ∧
      1 ≤ (RateLimitAwareRetry.handle_async_request rcfg method transport nowAt).calls) := by
  constructor
  · unfold IdempotentOnlyRetry.handle_async_request
    by_cases hi : (0 : Int) ≤ icfg.maxRetries
    · have h := IdempotentOnlyRetry.idemSendLoop_inv icfg method transport 0 none 0 []
        (by exact_mod_cast hi)
      exact ⟨h.2.2.2.2, h.2.2.1⟩
    · have hstep : IdempotentOnlyRetry.sendLoop icfg method transport 0 none 0 ([] : List ℚ)
          = ⟨transport 0, 1, [], true, true⟩ := by
        rw [IdempotentOnlyRetry.sendLoop.eq_def]
        rw [dif_neg (by exact_mod_cast hi)]
        rfl
      rw [hstep]
      exact ⟨rfl, le_refl 1⟩
  · unfold RateLimitAwareRetry.handle_async_request
    by_cases hr : (0 : Int) ≤ rcfg.maxRetries
    · have h := RateLimitAwareRetry.rlaSendLoop_inv rcfg method transport nowAt 0 none 0 []
        (by exact_mod_cast hr)
      exact ⟨h.2.2.2.2, h.2.2.1⟩
    · have hstep : RateLimitAwareRetry.sendLoop rcfg method transport nowAt 0 none 0 ([] : List ℚ)
          = ⟨transport 0, 1, [], true, true⟩ := by
        rw [RateLimitAwareRetry.sendLoop.eq_def]
        rw [dif_neg (by exact_mod_cast hr)]
        rfl
      rw [hstep]
      exact ⟨rfl, le_refl 1⟩

/-- Claim C9: for every logical send with a non-negative max_retries (the
only values the data model admits), the loop exits through an in-loop return
or raise: the code after the loop, including the fallback invocation of the
wrapped transport, never runs, and the wrapped transport is invoked at most
max_retries + 1 times, in both strategies. -/
theorem claim_C9_post_loop_unreachable {ε : Type}
    (icfg : IdempotentOnlyRetry.Config) (rcfg : RateLimitAwareRetry.Config)
    (method : String) (transport : Nat → Except ε Response) (nowAt : Nat → ℚ)
    (hi : 0 ≤ icfg.maxRetries) (hr : 0 ≤ rcfg.maxRetries) :
    ((IdempotentOnlyRetry.handle_async_request icfg method transport).postLoop = false ∧
      (IdempotentOnlyRetry.handle_async_request icfg method transport).fallbackCall = false ∧
      ((IdempotentOnlyRetry.handle_async_request icfg method transport).calls : Int)
          ≤ icfg.maxRetries + 1) ∧
    ((RateLimitAwareRetry.handle_async_request rcfg method transport nowAt).postLoop = false ∧
      (RateLimitAwareRetry.handle_async_request rcfg method transport nowAt).fallbackCall = false ∧
      ((RateLimitAwareRetry.handle_async_request rcfg method transport nowAt).calls : Int)
          ≤ rcfg.maxRetries + 1) := by
  constructor
  · unfold IdempotentOnlyRetry.handle_async_request
    have h := IdempotentOnlyRetry.idemSendLoop_inv icfg method transport 0 none 0 []
      (by exact_mod_cast hi)
    refine ⟨h.1, h.2.1, ?_⟩
    have := h.2.2.2.1
    push_cast at this ⊢
    omega
  · unfold RateLimitAwareRetry.handle_async_request
    have h := RateLimitAwareRetry.rlaSendLoop_inv rcfg method transport nowAt 0 none 0 []
      (by exact_mod_cast hr)
    refine ⟨h.1, h.2.1, ?_⟩
    have := h.2.2.2.1
    push_cast at this ⊢
    omega

/-- Witness for claim C9, at the default configurations with a GET request
whose every attempt returns a 200 response. -/
theorem claim_C9_post_loop_unreachable_witness :
    ((0 : Int) ≤ IdempotentOnlyRetry.defaultConfig.maxRetries ∧
      (0 : Int) ≤ RateLimitAwareRetry.defaultConfig.maxRetries) ∧
    (((IdempotentOnlyRetry.handle_async_request (ε := Unit) IdempotentOnlyRetry.defaultConfig
          "GET" (fun _ => Except.ok ⟨200, RetryAfterHeader.absent⟩)).postLoop = false ∧
      (IdempotentOnlyRetry.handle_async_request (ε := Unit) IdempotentOnlyRetry.defaultConfig
          "GET" (fun _ => Except.ok ⟨200, RetryAfterHeader.absent⟩)).fallbackCall = false ∧
      ((IdempotentOnlyRetry.handle_async_request (ε := Unit) IdempotentOnlyRetry.defaultConfig
          "GET" (fun _ => Except.ok ⟨200, RetryAfterHeader.absent⟩)).calls : Int)
          ≤ IdempotentOnlyRetry.defaultConfig.maxRetries + 1) ∧
    ((RateLimitAwareRetry.handle_async_request (ε := Unit) RateLimitAwareRetry.defaultConfig
          "GET" (fun _ => Except.ok ⟨200, RetryAfterHeader.absent⟩) (fun _ => 0)).postLoop = false ∧
      (RateLimitAwareRetry.handle_async_request (ε := Unit) RateLimitAwareRetry.defaultConfig
          "GET" (fun _ => Except.ok ⟨200, RetryAfterHeader.absent⟩) (fun _ => 0)).fallbackCall = false ∧
      ((RateLimitAwareRetry.handle_async_request (ε := Unit) RateLimitAwareRetry.defaultConfig
          "GET" (fun _ => Except.ok ⟨200, RetryAfterHeader.absent⟩) (fun _ => 0)).calls : Int)
          ≤ RateLimitAwareRetry.defaultConfig.maxRetries + 1)) :=
  ⟨⟨by decide, by decide⟩,
    claim_C9_post_loop_unreachable IdempotentOnlyRetry.defaultConfig
      RateLimitAwareRetry.defaultConfig "GET"
      (fun _ => Except.ok ⟨200, RetryAfterHeader.absent⟩) (fun _ => 0)
      (by decide) (by decide)⟩

/-- Claim C1 (code bug): the claim says both strategies apply the idempotency
check before retrying a transport exception, so a POST whose every attempt
raises propagates the exception after exactly 1 invocation.  The except
block of IdempotentOnlyRetry.handle_async_request (retry.py:147-160) checks
only the retry budget, so under the default configuration a POST whose every
attempt raises is retried 5 times and the exception propagates only after 6
invocations; RateLimitAwareRetry (retry.py:300) does check the method and
propagates after exactly 1 invocation. -/
theorem claim_C1_transport_exception_idempotency :
    (IdempotentOnlyRetry.handle_async_request (ε := Unit) IdempotentOnlyRetry.defaultConfig
        "POST" (fun _ => Except.error ())).calls = 6 ∧
    (IdempotentOnlyRetry.handle_async_request (ε := Unit) IdempotentOnlyRetry.defaultConfig
        "POST" (fun _ => Except.error ())).outcome = Except.error () ∧
    (RateLimitAwareRetry.handle_async_request (ε := Unit) RateLimitAwareRetry.defaultConfig
        "POST" (fun _ => Except.error ()) (fun _ => 0)).calls = 1 ∧
    (RateLimitAwareRetry.handle_async_request (ε := Unit) RateLimitAwareRetry.defaultConfig
        "POST" (fun _ => Except.error ()) (fun _ => 0)).outcome = Except.error () := by
  have hpost : "POST" ∉ RateLimitAwareRetry.IDEMPOTENT_METHODS := by decide
  refine ⟨?_, ?_, ?_, ?_⟩ <;>
    simp [IdempotentOnlyRetry.handle_async_request, IdempotentOnlyRetry.sendLoop,
      IdempotentOnlyRetry.should_retry, IdempotentOnlyRetry.defaultConfig,
      IdempotentOnlyRetry.init, RateLimitAwareRetry.handle_async_request,
      RateLimitAwareRetry.sendLoop, RateLimitAwareRetry.defaultConfig,
      RateLimitAwareRetry.init, hpost]

/-- Counterexample to claim C5: the Retry-After parser does not return a
non-negative integer value directly and leave clamping to the caller; with
max_backoff = 3 a Retry-After of 300 comes back from _parse_retry_after
already clamped to 3, not as 300 (retry.py:375). -/
theorem claim_C5_counterexample :
    RateLimitAwareRetry.parse_retry_after (RateLimitAwareRetry.init 5 1 3 none)
        (RetryAfterHeader.asInt 300) 0 = some 3 ∧
    RateLimitAwareRetry.parse_retry_after (RateLimitAwareRetry.init 5 1 3 none)
        (RetryAfterHeader.asInt 300) 0 ≠ some 300 := by
  constructor
  · simp only [RateLimitAwareRetry.parse_retry_after, RateLimitAwareRetry.init]
    norm_num
  · simp only [RateLimitAwareRetry.parse_retry_after, RateLimitAwareRetry.init]
    norm_num

/-- Claim C5 as amended: the parser returns min(value, maxBackoffSeconds)
for a non-negative integer value (the clamp happens inside the parser, not
in the caller), none for a negative integer, min(targetTime - now,
maxBackoffSeconds) for an HTTP date in the future, none for a past date or
any other format; and whenever it returns none on a 429 with retries
remaining the strategy falls back to exponential backoff, so a malformed
value is never surfaced as an error. -/
theorem claim_C5_parse_retry_after (cfg : RateLimitAwareRetry.Config)
    (n : Int) (t now : ℚ) :
    (0 ≤ n → RateLimitAwareRetry.parse_retry_after cfg (RetryAfterHeader.asInt n) now
        = some (min (n : ℚ) cfg.maxBackoff)) ∧
    (n < 0 → RateLimitAwareRetry.parse_retry_after cfg (RetryAfterHeader.asInt n) now
        = none) ∧
    (0 ≤ t - now → RateLimitAwareRetry.parse_retry_after cfg (RetryAfterHeader.asDate t) now
        = some (min (t - now) cfg.maxBackoff)) ∧
    (t - now < 0 → RateLimitAwareRetry.parse_retry_after cfg (RetryAfterHeader.asDate t) now
        = none) ∧
    RateLimitAwareRetry.parse_retry_after cfg RetryAfterHeader.malformed now = none ∧
    RateLimitAwareRetry.parse_retry_after cfg RetryAfterHeader.absent now = none ∧
    (∀ (method : String) (resp : Response) (r : Nat),
      resp.status = 429 → (r : Int) < cfg.maxRetries →
      RateLimitAwareRetry.parse_retry_after cfg resp.retryAfter now = none →
      RateLimitAwareRetry.should_retry_with_delay cfg method resp r now
        = (true, RateLimitAwareRetry.calculate_backoff_delay cfg (r + 1))) := by
  refine ⟨?_, ?_, ?_, ?_, ?_, ?_, ?_⟩
  · intro hn
    simp only [RateLimitAwareRetry.parse_retry_after]
    rw [if_neg (not_lt.mpr hn)]
  · intro hn
    simp only [RateLimitAwareRetry.parse_retry_after]
    rw [if_pos hn]
  · intro ht
    simp only [RateLimitAwareRetry.parse_retry_after]
    rw [if_neg (not_lt.mpr ht)]
  · intro ht
    simp only [RateLimitAwareRetry.parse_retry_after]
    rw [if_pos ht]
  · rfl
  · rfl
  · intro method resp r h429 hlt hnone
    unfold RateLimitAwareRetry.should_retry_with_delay
    rw [if_neg (not_le.mpr hlt), if_pos h429, hnone]

/-- Witness for claim C5 as amended, at maxBackoff = 3 with the integer
values 300 and -10, a past date, and a malformed value. -/
theorem claim_C5_parse_retry_after_witness :
    ((0 : Int) ≤ 300 ∧
      RateLimitAwareRetry.parse_retry_after (RateLimitAwareRetry.init 5 1 3 none)
        (RetryAfterHeader.asInt 300) 7
        = some (min ((300 : Int) : ℚ) (RateLimitAwareRetry.init 5 1 3 none).maxBackoff)) ∧
    ((-10 : Int) < 0 ∧
      RateLimitAwareRetry.parse_retry_after (RateLimitAwareRetry.init 5 1 3 none)
        (RetryAfterHeader.asInt (-10)) 7 = none) ∧
    ((2 : ℚ) - 7 < 0 ∧
      RateLimitAwareRetry.parse_retry_after (RateLimitAwareRetry.init 5 1 3 none)
        (RetryAfterHeader.asDate 2) 7 = none) :=
  ⟨⟨by norm_num, (claim_C5_parse_retry_after (RateLimitAwareRetry.init 5 1 3 none)
      300 2 7).1 (by norm_num)⟩,
    ⟨by norm_num, (claim_C5_parse_retry_after (RateLimitAwareRetry.init 5 1 3 none)
      (-10) 2 7).2.1 (by norm_num)⟩,
    ⟨by norm_num, (claim_C5_parse_retry_after (RateLimitAwareRetry.init 5 1 3 none)
      300 2 7).2.2.2.1 (by norm_num)⟩⟩

/-- Claim C6: the delay attached to any 429 retry decision of the
RateLimitAware strategy never exceeds maxBackoffSeconds, whether it comes
from the Retry-After header or from exponential backoff; in particular with
maxBackoffSeconds = 3 a Retry-After of 300 seconds yields a delay of 3. -/
theorem claim_C6_delay_cap :
    (∀ (cfg : RateLimitAwareRetry.Config) (method : String) (resp : Response)
        (r : Nat) (now : ℚ),
      resp.status = 429 →
      (RateLimitAwareRetry.should_retry_with_delay cfg method resp r now).1 = true →
      (RateLimitAwareRetry.should_retry_with_delay cfg method resp r now).2
        ≤ cfg.maxBackoff) ∧
    RateLimitAwareRetry.should_retry_with_delay (RateLimitAwareRetry.init 5 1 3 none)
        "GET" ⟨429, RetryAfterHeader.asInt 300⟩ 0 0 = (true, 3) := by
  constructor
  · intro cfg method resp r now h429 htrue
    have hlt := RateLimitAwareRetry.decision_lt cfg method resp r now htrue
    unfold RateLimitAwareRetry.should_retry_with_delay
    rw [if_neg (not_le.mpr hlt), if_pos h429]
    cases hp : RateLimitAwareRetry.parse_retry_after cfg resp.retryAfter now with
    | some d =>
      simpa using RateLimitAwareRetry.parse_retry_after_le cfg resp.retryAfter now d hp
    | none =>
      simp only [RateLimitAwareRetry.calculate_backoff_delay]
      exact min_le_right _ _
  · simp only [RateLimitAwareRetry.should_retry_with_delay,
      RateLimitAwareRetry.parse_retry_after, RateLimitAwareRetry.init]
    norm_num

/-- Witness for claim C6, at maxBackoff = 3 with a 429 response carrying
Retry-After 300: the decision is a retry and its delay is at most 3. -/
theorem claim_C6_delay_cap_witness :
    (Response.mk 429 (RetryAfterHeader.asInt 300)).status = 429 ∧
    (RateLimitAwareRetry.should_retry_with_delay (RateLimitAwareRetry.init 5 1 3 none)
        "GET" ⟨429, RetryAfterHeader.asInt 300⟩ 0 0).1 = true ∧
    (RateLimitAwareRetry.should_retry_with_delay (RateLimitAwareRetry.init 5 1 3 none)
        "GET" ⟨429, RetryAfterHeader.asInt 300⟩ 0 0).2
      ≤ (RateLimitAwareRetry.init 5 1 3 none).maxBackoff :=
  ⟨rfl, by decide,
    claim_C6_delay_cap.1 (RateLimitAwareRetry.init 5 1 3 none) "GET"
      ⟨429, RetryAfterHeader.asInt 300⟩ 0 0 rfl (by decide)⟩

/-- Claim C2: for every non-negative maxRetries n, a logical send of an
idempotent-method request whose every attempt yields a response with a
status in the configured retry set invokes the wrapped transport exactly
n + 1 times, returns the final response rather than raising, and sleeps once
per retry (so for n = 0 there is exactly one attempt and no sleep). -/
theorem claim_C2_exhaustion_attempt_count {ε : Type} (cfg : IdempotentOnlyRetry.Config)
    (method : String) (transport : Nat → Except ε Response) (n : Nat)
    (hn : cfg.maxRetries = (n : Int))
    (hm : method ∈ IdempotentOnlyRetry.IDEMPOTENT_METHODS)
    (hfail : ∀ k r, transport k = Except.ok r → r.status ∈ cfg.retryStatusCodes)
    (hok : ∀ k, ∃ r, transport k = Except.ok r) :
    (IdempotentOnlyRetry.handle_async_request cfg method transport).calls = n + 1 ∧
    (∀ r, transport n = Except.ok r →
      (IdempotentOnlyRetry.handle_async_request cfg method transport).outcome
        = Except.ok r) ∧
    (IdempotentOnlyRetry.handle_async_request cfg method transport).sleeps.length = n := by
  have h := IdempotentOnlyRetry.sendLoop_all_retryable cfg method transport n hn hm
    hfail hok 0 none 0 [] (Nat.zero_le n)
  unfold IdempotentOnlyRetry.handle_async_request
  refine ⟨by simpa using h.1, ?_, by simpa using h.2.1⟩
  intro r hr
  have hout := h.2.2
  simp only [Nat.zero_add, Nat.sub_zero] at hout
  rw [hout, hr]

/-- Witness for claim C2, with maxRetries = 3 and a GET whose every attempt
returns a 503 response: 4 invocations, 3 sleeps, and the 503 is returned. -/
theorem claim_C2_exhaustion_attempt_count_witness :
    (IdempotentOnlyRetry.init 3 1 none).maxRetries = ((3 : Nat) : Int) ∧
    (IdempotentOnlyRetry.handle_async_request (ε := Unit) (IdempotentOnlyRetry.init 3 1 none)
        "GET" (fun _ => Except.ok ⟨503, RetryAfterHeader.absent⟩)).calls = 3 + 1 ∧
    (IdempotentOnlyRetry.handle_async_request (ε := Unit) (IdempotentOnlyRetry.init 3 1 none)
        "GET" (fun _ => Except.ok ⟨503, RetryAfterHeader.absent⟩)).outcome
      = Except.ok ⟨503, RetryAfterHeader.absent⟩ ∧
    (IdempotentOnlyRetry.handle_async_request (ε := Unit) (IdempotentOnlyRetry.init 3 1 none)
        "GET" (fun _ => Except.ok ⟨503, RetryAfterHeader.absent⟩)).sleeps.length = 3 := by
  have h := claim_C2_exhaustion_attempt_count (ε := Unit) (IdempotentOnlyRetry.init 3 1 none)
    "GET" (fun _ => Except.ok ⟨503, RetryAfterHeader.absent⟩) 3 rfl (by decide)
    (by
      intro k r h
      injection h with h2
      rw [← h2]
      decide)
    (fun k => ⟨⟨503, RetryAfterHeader.absent⟩, rfl⟩)
  exact ⟨rfl, h.1, h.2.1 ⟨503, RetryAfterHeader.absent⟩ rfl, h.2.2⟩

/-- Claim C3: for the RateLimitAware strategy a 429 response is retried for
every method when retries remain, while a 503 response on a POST is not
retried (POST is not in the widened idempotent set) and is returned
immediately after a single invocation. -/
theorem claim_C3_rla_429_all_methods_503_post_stops :
    (∀ (cfg : RateLimitAwareRetry.Config) (method : String) (resp : Response)
        (r : Nat) (now : ℚ),
      (r : Int) < cfg.maxRetries → resp.status = 429 →
      (RateLimitAwareRetry.should_retry_with_delay cfg method resp r now).1 = true) ∧
    "POST" ∉ RateLimitAwareRetry.IDEMPOTENT_METHODS ∧
    (∀ (cfg : RateLimitAwareRetry.Config) (resp : Response) (r : Nat) (now : ℚ),
      resp.status = 503 →
      (RateLimitAwareRetry.should_retry_with_delay cfg "POST" resp r now).1 = false) ∧
    (∀ (ε : Type) (cfg : RateLimitAwareRetry.Config)
        (transport : Nat → Except ε Response) (nowAt : Nat → ℚ) (resp : Response),
      0 ≤ cfg.maxRetries → transport 0 = Except.ok resp → resp.status = 503 →
      (RateLimitAwareRetry.handle_async_request cfg "POST" transport nowAt).calls = 1 ∧
      (RateLimitAwareRetry.handle_async_request cfg "POST" transport nowAt).outcome
        = Except.ok resp) := by
  have hfalse : ∀ (cfg : RateLimitAwareRetry.Config) (resp : Response) (r : Nat) (now : ℚ),
      resp.status = 503 →
      (RateLimitAwareRetry.should_retry_with_delay cfg "POST" resp r now).1 = false := by
    intro cfg resp r now h503
    unfold RateLimitAwareRetry.should_retry_with_delay
    by_cases hge : (r : Int) ≥ cfg.maxRetries
    · rw [if_pos hge]
    · rw [if_neg hge, if_neg (by rw [h503]; decide),
        if_neg (fun hc => absurd hc.2 (by decide))]
  refine ⟨?_, by decide, hfalse, ?_⟩
  · intro cfg method resp r now hlt h429
    unfold RateLimitAwareRetry.should_retry_with_delay
    rw [if_neg (not_le.mpr hlt), if_pos h429]
    cases hp : RateLimitAwareRetry.parse_retry_after cfg resp.retryAfter now <;> simp
  · intro ε cfg transport nowAt resp h0 htr h503
    unfold RateLimitAwareRetry.handle_async_request
    have hstep : RateLimitAwareRetry.sendLoop cfg "POST" transport nowAt 0 none 0 ([] : List ℚ)
        = ⟨Except.ok resp, 1, [], false, false⟩ := by
      rw [RateLimitAwareRetry.sendLoop.eq_def]
      rw [dif_pos (by exact_mod_cast h0)]
      simp only [htr]
      rw [dif_neg (by rw [hfalse cfg resp 0 (nowAt 0) h503]; simp)]
    rw [hstep]
    exact ⟨rfl, rfl⟩

/-- Witness for claim C3, at the default configuration: a 429 POST decision
with retries remaining is a retry, a 503 POST decision is a stop, and a
POST send whose first attempt returns 503 makes exactly one invocation. -/
theorem claim_C3_rla_429_all_methods_503_post_stops_witness :
    ((0 : Int) < RateLimitAwareRetry.defaultConfig.maxRetries ∧
      (RateLimitAwareRetry.should_retry_with_delay RateLimitAwareRetry.defaultConfig
        "POST" ⟨429, RetryAfterHeader.absent⟩ 0 0).1 = true) ∧
    (RateLimitAwareRetry.should_retry_with_delay RateLimitAwareRetry.defaultConfig
        "POST" ⟨503, RetryAfterHeader.absent⟩ 0 0).1 = false ∧
    ((RateLimitAwareRetry.handle_async_request (ε := Unit) RateLimitAwareRetry.defaultConfig
        "POST" (fun _ => Except.ok ⟨503, RetryAfterHeader.absent⟩) (fun _ => 0)).calls = 1 ∧
      (RateLimitAwareRetry.handle_async_request (ε := Unit) RateLimitAwareRetry.defaultConfig
        "POST" (fun _ => Except.ok ⟨503, RetryAfterHeader.absent⟩) (fun _ => 0)).outcome
        = Except.ok ⟨503, RetryAfterHeader.absent⟩) :=
  ⟨⟨by decide, claim_C3_rla_429_all_methods_503_post_stops.1 RateLimitAwareRetry.defaultConfig
      "POST" ⟨429, RetryAfterHeader.absent⟩ 0 0 (by decide) rfl⟩,
    claim_C3_rla_429_all_methods_503_post_stops.2.2.1 RateLimitAwareRetry.defaultConfig
      ⟨503, RetryAfterHeader.absent⟩ 0 0 rfl,
    claim_C3_rla_429_all_methods_503_post_stops.2.2.2 Unit RateLimitAwareRetry.defaultConfig
      (fun _ => Except.ok ⟨503, RetryAfterHeader.absent⟩) (fun _ => 0)
      ⟨503, RetryAfterHeader.absent⟩ (by decide) rfl rfl⟩

/-- Claim C4: for the IdempotentOnly strategy a response-based retry happens
exactly when attemptsSoFar is below maxRetries, the method is in HEAD, GET,
OPTIONS, TRACE, and the status is in the configured retry set, which under
the default configuration is 502, 503, 504; in particular a 429 response is
never retried under the default configuration, for any method, yielding
exactly one invocation. -/
theorem claim_C4_idem_retry_condition :
    (∀ (cfg : IdempotentOnlyRetry.Config) (method : String) (status : Int) (r : Nat),
      IdempotentOnlyRetry.should_retry cfg method status r = true ↔
        ((r : Int) < cfg.maxRetries ∧ method ∈ IdempotentOnlyRetry.IDEMPOTENT_METHODS ∧
          status ∈ cfg.retryStatusCodes)) ∧
    IdempotentOnlyRetry.IDEMPOTENT_METHODS = ["HEAD", "GET", "OPTIONS", "TRACE"] ∧
    IdempotentOnlyRetry.defaultConfig.retryStatusCodes = ({502, 503, 504} : Finset Int) ∧
    (∀ (method : String) (r : Nat),
      IdempotentOnlyRetry.should_retry IdempotentOnlyRetry.defaultConfig method 429 r
        = false) ∧
    (∀ (ε : Type) (method : String) (transport : Nat → Except ε Response) (resp : Response),
      transport 0 = Except.ok resp → resp.status = 429 →
      (IdempotentOnlyRetry.handle_async_request IdempotentOnlyRetry.defaultConfig
          method transport).calls = 1 ∧
      (IdempotentOnlyRetry.handle_async_request IdempotentOnlyRetry.defaultConfig
          method transport).outcome = Except.ok resp) := by
  have h429 : ∀ (method : String) (r : Nat),
      IdempotentOnlyRetry.should_retry IdempotentOnlyRetry.defaultConfig method 429 r
        = false := by
    intro method r
    rw [Bool.eq_false_iff]
    intro h
    have := (IdempotentOnlyRetry.should_retry_iff _ _ _ _).mp h
    exact absurd this.2.2 (by decide)
  refine ⟨IdempotentOnlyRetry.should_retry_iff, rfl, rfl, h429, ?_⟩
  intro ε method transport resp htr hst
  unfold IdempotentOnlyRetry.handle_async_request
  have hstep : IdempotentOnlyRetry.sendLoop IdempotentOnlyRetry.defaultConfig method
      transport 0 none 0 ([] : List ℚ)
      = ⟨Except.ok resp, 1, [], false, false⟩ := by
    rw [IdempotentOnlyRetry.sendLoop.eq_def]
    rw [dif_pos (by decide)]
    simp only [htr]
    rw [dif_neg (by rw [hst, h429 method 0]; simp)]
  rw [hstep]
  exact ⟨rfl, rfl⟩

/-- Witness for claim C4, at the default configuration: the retry condition
holds at a concrete in-budget GET 503, and a POST send whose first attempt
returns 429 makes exactly one invocation and returns the 429. -/
theorem claim_C4_idem_retry_condition_witness :
    ((0 : Int) < IdempotentOnlyRetry.defaultConfig.maxRetries ∧
      "GET" ∈ IdempotentOnlyRetry.IDEMPOTENT_METHODS ∧
      (503 : Int) ∈ IdempotentOnlyRetry.defaultConfig.retryStatusCodes) ∧
    IdempotentOnlyRetry.should_retry IdempotentOnlyRetry.defaultConfig "GET" 503 0 = true ∧
    ((IdempotentOnlyRetry.handle_async_request (ε := Unit) IdempotentOnlyRetry.defaultConfig
        "POST" (fun _ => Except.ok ⟨429, RetryAfterHeader.absent⟩)).calls = 1 ∧
      (IdempotentOnlyRetry.handle_async_request (ε := Unit) IdempotentOnlyRetry.defaultConfig
        "POST" (fun _ => Except.ok ⟨429, RetryAfterHeader.absent⟩)).outcome
        = Except.ok ⟨429, RetryAfterHeader.absent⟩) :=
  ⟨⟨by decide, by decide, by decide⟩,
    (claim_C4_idem_retry_condition.1 IdempotentOnlyRetry.defaultConfig "GET" 503 0).mpr
      ⟨by decide, by decide, by decide⟩,
    claim_C4_idem_retry_condition.2.2.2.2 Unit "POST"
      (fun _ => Except.ok ⟨429, RetryAfterHeader.absent⟩)
      ⟨429, RetryAfterHeader.absent⟩ rfl rfl⟩

end RetryPy
